import Mathlib

/-!
Shallow embedding of the llibspf SPF evaluator (TypeScript).

The embedding follows the current draft of the library: `SPFValidator.ts`,
`SPFDirectives.ts`, `SPFModifiers.ts`, `SPFExplainRecord.ts`,
`SPFMacroProcessor.ts` and the `SPFRecord`/`SPFContext` drafts found in the
unnamed source parts (the `SPFRecord` class with `directives`/`modifiers`
that `SPFValidator` actually uses).

Modelling conventions:
* Asynchronous DNS (`dns.resolveTxt` & co.) is modelled by an explicit
  environment `DnsEnv` of pure lookup functions; `none` models a rejected
  promise (NXDOMAIN / servfail), `some xs` a fulfilled one.
* The external `llibipaddress` IP value type (out of scope per the spec) is
  abstracted by `IPAddrM`, an oracle describing one parsed address relative
  to the (fixed) client address, and `IPOps` for `IPvXAddress.decode`.
* Thrown exceptions are modelled with `Except SPFErr`; the error kind
  distinguishes `SPFSyntacticalError`, `SPFNetworkingError` and any other
  (non-SPF) exception, mirroring the `catch` in `SPFValidator.validate`.
* Recursion through `include:` and `redirect=` is unbounded in the source;
  it is modelled with an explicit fuel parameter, `none` meaning that no
  bound suffices (non-termination).
* JavaScript string operations (`split`, `trim`, `toLowerCase` on ASCII,
  `indexOf`, `slice`, `join`) are re-implemented on `List Char` so that all
  definitions reduce definitionally.
-/

/-- Left curly brace character (written via code point to keep string
literals free of raw braces). -/
def lcub : Char := Char.ofNat 123

/-- Right curly brace character. -/
def rcub : Char := Char.ofNat 125

/-- Whitespace test matching the JavaScript `\s` class on the ASCII range. -/
def isWsChar (c : Char) : Bool :=
  decide (c = ' ' ∨ c = '\t' ∨ c = '\n' ∨ c = '\r' ∨ c.toNat = 11 ∨ c.toNat = 12)

/-- Lowercase ASCII letter test, `[a-z]`. -/
def isLowerAlpha (c : Char) : Bool :=
  decide (97 ≤ c.toNat ∧ c.toNat ≤ 122)

/-- Digit test, `[0-9]`. -/
def isDigitCh (c : Char) : Bool :=
  decide (48 ≤ c.toNat ∧ c.toNat ≤ 57)

/-- ASCII lowering of one character, the ASCII fragment of JavaScript
`String.prototype.toLowerCase`. -/
def lcChar (c : Char) : Char :=
  if 65 ≤ c.toNat ∧ c.toNat ≤ 90 then Char.ofNat (c.toNat + 32) else c

/-- ASCII lowering of a character list. -/
def lcChars (cs : List Char) : List Char := cs.map lcChar

/-- JavaScript `String.prototype.trim` on the ASCII range. -/
def chTrim (cs : List Char) : List Char :=
  ((cs.dropWhile isWsChar).reverse.dropWhile isWsChar).reverse

/-- Whether `pre` is a prefix of `cs` (JavaScript `startsWith`). -/
def chStartsWith : List Char → List Char → Bool
  | _, [] => true
  | [], _ :: _ => false
  | c :: cs, p :: ps => c = p && chStartsWith cs ps

/-- Whether `suf` is a suffix of `cs` (JavaScript `endsWith`). -/
def chEndsWith (cs suf : List Char) : Bool :=
  chStartsWith cs.reverse suf.reverse

/-- First index of character `t` (JavaScript `indexOf`, `none` for `-1`). -/
def chIndexOf : List Char → Char → Option Nat
  | [], _ => none
  | c :: rest, t => if c = t then some 0 else (chIndexOf rest t).map (· + 1)

/-- Split on every character satisfying `p`
(JavaScript `split` with a single-character class). -/
def splitOnPred (p : Char → Bool) : List Char → List (List Char)
  | [] => [[]]
  | c :: rest =>
    if p c then [] :: splitOnPred p rest
    else
      match splitOnPred p rest with
      | [] => [[c]]
      | seg :: segs => (c :: seg) :: segs

/-- JavaScript `base.split(".")`. -/
def splitDot (cs : List Char) : List (List Char) := splitOnPred (· = '.') cs

/-- JavaScript `split(/\s/g)`. -/
def splitWs (cs : List Char) : List (List Char) := splitOnPred isWsChar cs

/-- Collapse every run of whitespace to a single space,
JavaScript `replace(/\s+/g, " ")`. -/
def collapseWs : List Char → List Char
  | [] => []
  | c :: rest =>
    if isWsChar c then
      match collapseWs rest with
      | [] => [' ']
      | d :: tail => if d = ' ' then ' ' :: tail else ' ' :: d :: tail
    else
      match collapseWs rest with
      | tail => c :: tail

/-- JavaScript `Array.prototype.join` with separator `sep`. -/
def chJoin (sep : List Char) : List (List Char) → List Char
  | [] => []
  | [x] => x
  | x :: xs => x ++ sep ++ chJoin sep xs

/-- Numeric value of a digit run (JavaScript `parseInt` on `[0-9]+`). -/
def digitsToNat (cs : List Char) : Nat :=
  cs.foldl (fun a c => a * 10 + (c.toNat - 48)) 0

/-- JavaScript `arr.splice(arr.length - n)` for `n ≥ 1`: the observable
value is the kept right-hand slice, including the negative-start clamping
of `splice`. -/
def jsSpliceTail {α : Type} (arr : List α) (n : Nat) : List α :=
  if n ≤ arr.length then arr.drop (arr.length - n)
  else arr.drop (2 * arr.length - n)

/-- Effectful map over a list in the `Except` monad, preserving order and
stopping at the first error (models sequential `array.map` with `throw`). -/
def exMapM {ε α β : Type} (f : α → Except ε β) : List α → Except ε (List β)
  | [] => .ok []
  | x :: xs =>
    match f x with
    | .error e => .error e
    | .ok y =>
      match exMapM f xs with
      | .error e => .error e
      | .ok ys => .ok (y :: ys)

/-! ## Error, result and data model types -/

/-- Error classes thrown by the library: `SPFSyntacticalError`,
`SPFNetworkingError`, and any other (non-SPF) exception such as a raw
`dns` rejection or a `llibipaddress` decode failure. -/
inductive SPFErrKind
  | syntactical
  | networking
  | other
deriving DecidableEq, Repr

/-- A thrown error with its message. -/
structure SPFErr where
  kind : SPFErrKind
  msg : String
deriving DecidableEq, Repr

/-- `SPFResultType` from `SPFResult.ts`. -/
inductive SPFResultType
  | None
  | Neutral
  | Pass
  | Fail
  | SoftFail
  | TempError
  | PermError
deriving DecidableEq, Repr

/-- `SPFDirectiveQualifier` from `SPFDirectives.ts`. -/
inductive SPFDirectiveQualifier
  | Pass
  | Fail
  | SoftFail
  | Neutral
deriving DecidableEq, Repr

/-- Oracle for one address value produced by the external `llibipaddress`
library, described relative to the evaluation's fixed client address. -/
structure IPAddrM where
  enc : String
  hasCidr : Bool
  cidrMatchClient : Bool
  equalsClient : Bool
deriving DecidableEq, Repr

/-- The eight mechanism variants of `SPFDirectives.ts`. -/
inductive SPFMechanism
  | all
  | includeMech (domain : String)
  | a (domain : Option String)
  | mx (domain : Option String)
  | ptr (domain : String)
  | ip4 (address : IPAddrM)
  | ip6 (address : IPAddrM)
  | existsMech (hostname : String)
deriving DecidableEq, Repr

/-- `SPFDirective`: a qualifier plus a mechanism. -/
structure SPFDirective where
  qualifier : SPFDirectiveQualifier
  mechanism : SPFMechanism
deriving DecidableEq, Repr

/-- The modifier variants of `SPFModifiers.ts`. -/
inductive SPFModifier
  | redirect (hostname : String)
  | exp (hostname : String)
deriving DecidableEq, Repr

/-- `SPFRecord`: ordered directives plus modifiers. -/
structure SPFRecord where
  directives : List SPFDirective
  modifiers : List SPFModifier
deriving DecidableEq, Repr

/-- Session context. The repository carries two context shapes (a flat
`SPFContext` class used by the macro processor and a nested `ISPFContext`
used by the validator); this structure holds the union of the fields the
embedded code paths read. -/
structure SPFContext where
  sender : String
  clientDomain : String
  clientGreetDomain : String
  clientIPEnc : String
  clientIsV4 : Bool
  emailDomain : String
  emailUsername : String
deriving DecidableEq, Repr

/-- DNS environment: one pure lookup table per record type. `none` models a
rejected promise (for example NXDOMAIN), `some` a fulfilled one. -/
structure DnsEnv where
  txt : String → Option (List (List String))
  a4 : String → Option (List String)
  a6 : String → Option (List String)
  mxq : String → Option (List String)
  rev : String → Option (List String)

/-- Oracle for `IPv4Address.decode` / `IPv6Address.decode` of the external
`llibipaddress` library; `none` models a decode exception. -/
structure IPOps where
  decode4 : String → Option IPAddrM
  decode6 : String → Option IPAddrM

/-- `SPFMechanismResult` from `SPFDirectives.ts`. -/
structure SPFMechanismResult where
  matched : Bool
  reason : Option String := none
deriving DecidableEq, Repr

/-- `SPFResult` (the context field is constant per evaluation and omitted). -/
structure SPFResult where
  type : SPFResultType
  mechanism : Option SPFMechanism := none
  comment : Option String := none
  explaination : Option String := none
deriving DecidableEq, Repr

/-- Outcome of `SPFValidator.validate`: a returned `SPFResult`, or a
non-SPF exception that escapes the `catch` block (`exn`). -/
inductive ValidateOut
  | result (r : SPFResult)
  | exn (msg : String)
deriving DecidableEq, Repr

/-! ## Macro processor (`SPFMacroProcessor.ts`) -/

/-- Delimiter class of the macro grammar, `[.\-+,/_=]`. -/
def isDelimCh (c : Char) : Bool :=
  decide (c = '.' ∨ c = '-' ∨ c = '+' ∨ c = ',' ∨ c = '/' ∨ c = '_' ∨ c = '=')

/-- Character class of the outer macro regex, `[a-z0-9.\-+,/_=]`. -/
def isMacroInnerCh (c : Char) : Bool :=
  isLowerAlpha c || isDigitCh c || isDelimCh c

/-- Parse of the anchored macro regex
`^%\x7b(letter)(digits?)(letter?)(delim?)\x7d$` used by `_execute`; returns
the letter, the optional digit count, the optional transformation letter
and the optional delimiter. The character classes of the four groups are
pairwise disjoint, so the greedy sequential parse coincides with the
backtracking regex. -/
def parseMacroToken (cs : List Char) : Option (Char × Option Nat × Option Char × Option Char) :=
  match cs with
  | p :: b :: rest =>
    if p = '%' ∧ b = lcub then
      match rest with
      | l :: rest1 =>
        if isLowerAlpha l then
          let ds := rest1.takeWhile isDigitCh
          let digits := if ds.isEmpty then none else some (digitsToNat ds)
          let rest2 := rest1.drop ds.length
          let (tl, rest3) :=
            match rest2 with
            | t :: r => if isLowerAlpha t then (some t, r) else (none, rest2)
            | [] => (none, ([] : List Char))
          let (dl, rest4) :=
            match rest3 with
            | d :: r => if isDelimCh d then (some d, r) else (none, rest3)
            | [] => (none, ([] : List Char))
          if rest4 = [rcub] then some (l, digits, tl, dl) else none
        else none
      | [] => none
    else none
  | _ => none

/-- `sender_local_part` getter: the part of `sender` before `@`; throws
`SPFSyntacticalError` when `sender` has no `@`. -/
def senderLocalPart (ctx : SPFContext) : Except SPFErr (List Char) :=
  match chIndexOf ctx.sender.data '@' with
  | none => .error ⟨.syntactical, "Invalid sender."⟩
  | some i => .ok (ctx.sender.data.take i)

/-- `sender_domain` getter: the part of `sender` after `@`. -/
def senderDomainPart (ctx : SPFContext) : Except SPFErr (List Char) :=
  match chIndexOf ctx.sender.data '@' with
  | none => .error ⟨.syntactical, "Invalid sender."⟩
  | some i => .ok (ctx.sender.data.drop (i + 1))

namespace SPFMacroProcessor

/-- `SPFMacroProcessor._execute`: evaluate one complete macro token
(including the surrounding percent and braces). `nowSec` models
`Math.floor(new Date().getTime() / 1000)` for the `t` letter. -/
def execute (ctx : SPFContext) (nowSec : Nat) (mac : List Char) (exp : Bool) :
    Except SPFErr (List Char) :=
  match parseMacroToken mac with
  | none => .error ⟨.syntactical, "'" ++ String.mk mac ++ "' is not a valid macro!"⟩
  | some (letter, digits, tl, dl) =>
    let delimiter : Char := dl.getD '.'
    let baseE : Except SPFErr (List Char) :=
      if letter = 's' then .ok ctx.sender.data
      else if letter = 'l' then senderLocalPart ctx
      else if letter = 'o' ∨ letter = 'd' then senderDomainPart ctx
      else if letter = 'i' then .ok ctx.clientIPEnc.data
      else if letter = 'p' then .error ⟨.syntactical, "The validate domain is deprecated!"⟩
      else if letter = 'v' then .ok (if ctx.clientIsV4 then "in-addr".data else "ip6".data)
      else if letter = 'h' then .ok ctx.clientGreetDomain.data
      else if letter = 'c' ∨ letter = 'r' ∨ letter = 't' then
        if exp = false then .error ⟨.syntactical, "May only be used inside the exp command."⟩
        else if letter = 'c' then .ok ctx.clientIPEnc.data
        else if letter = 'r' then .ok ctx.clientDomain.data
        else .ok (Nat.repr nowSec).data
      else .error ⟨.syntactical, "Invalid letter."⟩
    match baseE with
    | .error e => .error e
    | .ok base =>
      let arr := splitDot base
      let arr := if tl = some 'r' then arr.reverse else arr
      let arr :=
        match digits with
        | some n => if n = 0 then arr else jsSpliceTail arr n
        | none => arr
      .ok (chJoin [delimiter] arr)

/-- First replacement pass of `process`: the global regex
`%\x7b[a-z0-9.\-+,/_=]+\x7d` replaced by `_execute`. The fuel argument
bounds the scan; every step consumes at least one character, so
`cs.length + 1` is always enough. -/
def pass1 (ctx : SPFContext) (nowSec : Nat) (exp : Bool) :
    Nat → List Char → Except SPFErr (List Char)
  | 0, _ => .error ⟨.other, "scan fuel exhausted"⟩
  | _ + 1, [] => .ok []
  | fuel + 1, c :: rest =>
    if c = '%' then
      match rest with
      | b :: rest2 =>
        if b = lcub then
          let run := rest2.takeWhile isMacroInnerCh
          match run, rest2.drop run.length with
          | _ :: _, close :: after =>
            if close = rcub then
              match execute ctx nowSec ('%' :: lcub :: (run ++ [rcub])) exp with
              | .error e => .error e
              | .ok repl =>
                match pass1 ctx nowSec exp fuel after with
                | .error e => .error e
                | .ok tail => .ok (repl ++ tail)
            else
              match pass1 ctx nowSec exp fuel rest with
              | .error e => .error e
              | .ok tail => .ok ('%' :: tail)
          | _, _ =>
            match pass1 ctx nowSec exp fuel rest with
            | .error e => .error e
            | .ok tail => .ok ('%' :: tail)
        else
          match pass1 ctx nowSec exp fuel rest with
          | .error e => .error e
          | .ok tail => .ok ('%' :: tail)
      | [] => .ok ['%']
    else
      match pass1 ctx nowSec exp fuel rest with
      | .error e => .error e
      | .ok tail => .ok (c :: tail)

/-- Second replacement pass of `process`: the global regex `%.?`
(`%%` → `%`, `%_` → space, `%-` → `%20`, anything else throws).
A `%` at the end of input, or followed by a newline (which `.` does not
match), yields the throwing default branch with an empty matched char. -/
def pass2 : List Char → Except SPFErr (List Char)
  | [] => .ok []
  | ['%'] => .error ⟨.syntactical, "Invalid char after macro: "⟩
  | '%' :: c :: rest =>
    if c = '\n' then .error ⟨.syntactical, "Invalid char after macro: "⟩
    else if c = '%' then
      match pass2 rest with
      | .error e => .error e
      | .ok tail => .ok ('%' :: tail)
    else if c = '_' then
      match pass2 rest with
      | .error e => .error e
      | .ok tail => .ok (' ' :: tail)
    else if c = '-' then
      match pass2 rest with
      | .error e => .error e
      | .ok tail => .ok ('%' :: '2' :: '0' :: tail)
    else .error ⟨.syntactical, "Invalid char after macro: " ++ String.mk [c]⟩
  | c :: rest =>
    match pass2 rest with
    | .error e => .error e
    | .ok tail => .ok (c :: tail)

/-- `SPFMacroProcessor.process`: complex macros first, then simple ones. -/
def process (ctx : SPFContext) (nowSec : Nat) (token : String) (exp : Bool) :
    Except SPFErr String :=
  match pass1 ctx nowSec exp (token.data.length + 1) token.data with
  | .error e => .error e
  | .ok p1 =>
    match pass2 p1 with
    | .error e => .error e
    | .ok p2 => .ok (String.mk p2)

end SPFMacroProcessor

/-! ## Qualifier, mechanism and modifier parsing (`SPFDirectives.ts`,
`SPFModifiers.ts`) -/

/-- `spf_directive_qualifier_parse` from `SPFDirectives.ts`. Note the
source maps `?` to `SoftFail` and `~` to `Neutral`. -/
def spf_directive_qualifier_parse (raw : String) : Except SPFErr SPFDirectiveQualifier :=
  if raw.length ≠ 1 then
    .error ⟨.syntactical, "SPF Qualifier's length must be 1."⟩
  else if raw = "+" then .ok .Pass
  else if raw = "-" then .ok .Fail
  else if raw = "?" then .ok .SoftFail
  else if raw = "~" then .ok .Neutral
  else .error ⟨.syntactical, "Unknown qualifier!"⟩

/-- `spf_parse_mechanism`: dispatch on the mechanism keyword, with the
per-mechanism `parse` argument checks. -/
def spf_parse_mechanism (ips : IPOps) (key : String) (value : Option String) :
    Except SPFErr SPFMechanism :=
  if key = "all" then
    match value with
    | some _ => .error ⟨.syntactical, "all mechanism may not have ANY argument!"⟩
    | none => .ok .all
  else if key = "include" then
    match value with
    | none => .error ⟨.syntactical, "include mechanism must have one domain argument!"⟩
    | some v => .ok (.includeMech v)
  else if key = "a" then .ok (.a value)
  else if key = "mx" then .ok (.mx value)
  else if key = "ptr" then
    match value with
    | none => .error ⟨.syntactical, "PTR Records needs value."⟩
    | some v => .ok (.ptr v)
  else if key = "ip4" then
    match value with
    | none => .error ⟨.syntactical, "ip4 mechanism must have one IPv4 Address argument!"⟩
    | some v =>
      match ips.decode4 v with
      | none => .error ⟨.syntactical, "Invalid IPv4 Address."⟩
      | some addr => .ok (.ip4 addr)
  else if key = "ip6" then
    match value with
    | none => .error ⟨.syntactical, "ip6 mechanism must have one IPv6 Address argument!"⟩
    | some v =>
      match ips.decode6 v with
      | none => .error ⟨.syntactical, "Invalid IPv6 Address."⟩
      | some addr => .ok (.ip6 addr)
  else if key = "exists" then
    match value with
    | none => .error ⟨.syntactical, "exists mechanism must have one domain argument!"⟩
    | some v => .ok (.existsMech v)
  else .error ⟨.syntactical, "Invalid SPF Mechanism: " ++ key⟩

/-- `SPFDirective.parse`: peel an optional leading qualifier sigil
(default `Pass`), then parse the mechanism. -/
def SPFDirective.parse (ips : IPOps) (key : String) (value : Option String) :
    Except SPFErr SPFDirective :=
  match key.data with
  | c :: rest =>
    if c = '+' ∨ c = '-' ∨ c = '~' ∨ c = '?' then
      match spf_directive_qualifier_parse (String.mk [c]) with
      | .error e => .error e
      | .ok q =>
        match spf_parse_mechanism ips (String.mk rest) value with
        | .error e => .error e
        | .ok m => .ok ⟨q, m⟩
    else
      match spf_parse_mechanism ips key value with
      | .error e => .error e
      | .ok m => .ok ⟨.Pass, m⟩
  | [] =>
    match spf_parse_mechanism ips key value with
    | .error e => .error e
    | .ok m => .ok ⟨.Pass, m⟩

/-- `SPFModifier.parse` from `SPFModifiers.ts`; unknown modifier keys throw
`SPFSyntacticalError`. -/
def SPFModifier.parse (key : String) (value : Option String) :
    Except SPFErr SPFModifier :=
  if key = "redirect" then
    match value with
    | none => .error ⟨.syntactical, "SPF Redirect modifier must have an domain as argument."⟩
    | some v => .ok (.redirect v)
  else if key = "exp" then
    match value with
    | none => .error ⟨.syntactical, "SPF Explain modifier must have an domain as argument."⟩
    | some v => .ok (.exp v)
  else .error ⟨.syntactical, "Unknown SPF modifier: " ++ key⟩

/-! ## Record decoding and resolution (`SPFRecord` draft with
directives/modifiers) -/

/-- Classification of one whitespace-separated term of a record:
a directive pair or a modifier pair. -/
inductive TermClass
  | dir (key : String) (value : Option String)
  | mod (key : String) (value : String)
deriving DecidableEq, Repr

/-- One iteration of the `forEach` in `SPFRecord.decode`: locate the first
`:` and the first `=`; a term with neither is a bare directive key; the
separator is the first `:` when present, otherwise the first `=`; a term
split at `:` is a directive pair, one split at `=` a modifier pair. Key
and value are trimmed and lowercased. -/
def classifyTerm (pair : List Char) : TermClass :=
  let colonIdx := chIndexOf pair ':'
  let eqIdx := chIndexOf pair '='
  match colonIdx, eqIdx with
  | none, none => .dir (String.mk (lcChars (chTrim pair))) none
  | _, _ =>
    let sep :=
      match colonIdx with
      | some i => i
      | none => eqIdx.getD 0
    let key := String.mk (lcChars (chTrim (pair.take sep)))
    let value := String.mk (lcChars (chTrim (pair.drop (sep + 1))))
    if colonIdx.isSome then .dir key (some value) else .mod key value

/-- Directive pairs of a classified term list, in order. -/
def dirPairsOf (classes : List TermClass) : List (String × Option String) :=
  classes.filterMap fun c =>
    match c with
    | .dir k v => some (k, v)
    | .mod _ _ => none

/-- Modifier pairs of a classified term list, in order. -/
def modPairsOf (classes : List TermClass) : List (String × String) :=
  classes.filterMap fun c =>
    match c with
    | .dir _ _ => none
    | .mod k v => some (k, v)

/-- `SPFRecord.decode`: macro-process the raw record body, collapse and
trim whitespace, split into terms, classify each term, then parse all
directives and all modifiers. -/
def SPFRecord.decode (ips : IPOps) (ctx : SPFContext) (nowSec : Nat)
    (raw : String) (exp : Bool) : Except SPFErr SPFRecord :=
  match SPFMacroProcessor.process ctx nowSec raw exp with
  | .error e => .error e
  | .ok processed =>
    let terms := splitWs (chTrim (collapseWs processed.data))
    let classes := terms.map classifyTerm
    match exMapM (fun kv => SPFDirective.parse ips kv.1 kv.2) (dirPairsOf classes) with
    | .error e => .error e
    | .ok directives =>
      match exMapM (fun kv => SPFModifier.parse kv.1 (some kv.2)) (modPairsOf classes) with
      | .error e => .error e
      | .ok modifiers => .ok ⟨directives, modifiers⟩

/-- TXT answers trimmed after a comma-join (the JavaScript default
`Array.prototype.join()` separator), filtered to those starting with
`v=spf1` — the record selection step of `SPFRecord.resolve`. -/
def spfCandidates (recs : List (List String)) : List String :=
  (recs.map fun parts => String.mk (chTrim (chJoin [','] (parts.map String.data)))).filter
    fun r => chStartsWith r.data "v=spf1".data

/-- `SPFRecord.resolve`: fetch TXT records (a rejected lookup becomes
`SPFNetworkingError`), select the `v=spf1` candidates, return `none` when
there are none, otherwise decode the **first** candidate (all others are
ignored), with the `v=spf1` prefix sliced off. -/
def SPFRecord.resolve (env : DnsEnv) (ips : IPOps) (ctx : SPFContext)
    (nowSec : Nat) (hostname : String) (exp : Bool) :
    Except SPFErr (Option SPFRecord) :=
  match env.txt hostname with
  | none => .error ⟨.networking, ""⟩
  | some recs =>
    match spfCandidates recs with
    | [] => .ok none
    | r :: _ =>
      match SPFRecord.decode ips ctx nowSec (String.mk (r.data.drop 6)) exp with
      | .error e => .error e
      | .ok rec => .ok (some rec)

/-- `SPFExplainRecord.resolve`: fetch TXT for the explain hostname (a
rejected lookup is a **raw** `dns` error, not an SPF error), throw
`SPFNetworkingError` on an empty answer list, else macro-process the
concatenated first record with exp letters allowed. -/
def SPFExplainRecord.resolve (env : DnsEnv) (ctx : SPFContext) (nowSec : Nat)
    (hostname : String) : Except SPFErr String :=
  match env.txt hostname with
  | none => .error ⟨.other, "dns lookup failed"⟩
  | some recs =>
    match recs with
    | [] => .error ⟨.networking, "Could not find any TXT records for hostname: " ++ hostname⟩
    | first :: _ =>
      SPFMacroProcessor.process ctx nowSec (String.mk (chJoin [] (first.map String.data))) true

/-! ## Mechanism matching (`SPFDirectives.ts`) -/

/-- The `toString` methods of the mechanism classes. Note the source's
`SPFPTRMechanism.toString` emits the `mx` keyword. -/
def mechToString : SPFMechanism → String
  | .all => "all"
  | .includeMech d => "include:" ++ d
  | .a (some d) => "a:" ++ d
  | .a none => "a"
  | .mx (some d) => "mx:" ++ d
  | .mx none => "mx"
  | .ptr d => "mx:" ++ d
  | .ip4 addr => "ip4:" ++ addr.enc
  | .ip6 addr => "ip6:" ++ addr.enc
  | .existsMech h => "exists:" ++ h

/-- Decode a list of raw address strings with the external decoder; a
decode exception is a non-SPF error. -/
def decodeAddrs (dec : String → Option IPAddrM) : List String → Except SPFErr (List IPAddrM)
  | [] => .ok []
  | s :: rest =>
    match dec s with
    | none => .error ⟨.other, "address decode failed"⟩
    | some addr =>
      match decodeAddrs dec rest with
      | .error e => .error e
      | .ok addrs => .ok (addr :: addrs)

/-- Address loop of `SPFAMechanism.match`: first CIDR containment when the
record address carries a prefix, plain equality otherwise. `fam` is the
family label used in the reason strings. -/
def aScan (ctx : SPFContext) (fam : String) : List IPAddrM → SPFMechanismResult
  | [] =>
    ⟨false, some ("Clients " ++ fam ++ " " ++ ctx.clientIPEnc ++
      " is not mentioned, nor in any CIDR range.")⟩
  | addr :: rest =>
    if addr.hasCidr && addr.cidrMatchClient then
      ⟨true, some ("Clients " ++ fam ++ " " ++ ctx.clientIPEnc ++
        " is in the CIDR range " ++ addr.enc)⟩
    else if !addr.hasCidr && addr.equalsClient then
      ⟨true, some ("Clients " ++ fam ++ " " ++ ctx.clientIPEnc ++
        " is mentioned in A record.")⟩
    else aScan ctx fam rest

/-- Address loop of `SPFMXMechanism.match`: equality only. -/
def mxScan (ctx : SPFContext) (fam : String) : List IPAddrM → SPFMechanismResult
  | [] =>
    ⟨false, some ("Client " ++ fam ++ " " ++ ctx.clientIPEnc ++
      " not mentioned as mail exchange.")⟩
  | addr :: rest =>
    if addr.equalsClient then
      ⟨true, some ("Client " ++ fam ++ " " ++ ctx.clientIPEnc ++
        " is mentioned as mail exchange.")⟩
    else mxScan ctx fam rest

/-- Gather the A/AAAA addresses of every mail exchange
(`Promise.all` over `mailExchanges.map`). -/
def mxGather (env : DnsEnv) (ips : IPOps) (v4 : Bool) : List String → Except SPFErr (List IPAddrM)
  | [] => .ok []
  | ex :: rest =>
    match (if v4 then env.a4 ex else env.a6 ex) with
    | none => .error ⟨.other, "dns lookup failed"⟩
    | some raws =>
      match decodeAddrs (if v4 then ips.decode4 else ips.decode6) raws with
      | .error e => .error e
      | .ok addrs =>
        match mxGather env ips v4 rest with
        | .error e => .error e
        | .ok more => .ok (addrs ++ more)

/-- Hostname loop of `SPFPTRMechanism.match`: a reverse name matches when
it ends with the mechanism's domain string. -/
def ptrScan (ctx : SPFContext) (dom : String) : List String → SPFMechanismResult
  | [] => ⟨false, none⟩
  | h :: rest =>
    if chEndsWith h.data dom.data then
      ⟨true, some ("Reverse lookup of " ++ ctx.clientIPEnc ++
        " resulted in matching hostname: " ++ h)⟩
    else ptrScan ctx dom rest

/-- Directive loop of `SPFIncludeMechanism.match` over the included
record: the include matches at the first directive whose mechanism matches
**and** whose qualifier is `Pass`; every other directive is skipped. -/
def includeScan (matcher : SPFMechanism → Option (Except SPFErr SPFMechanismResult)) :
    List SPFDirective → Option (Except SPFErr SPFMechanismResult)
  | [] => some (.ok ⟨false, none⟩)
  | d :: rest =>
    match matcher d.mechanism with
    | none => none
    | some (.error e) => some (.error e)
    | some (.ok r) =>
      if r.matched = true ∧ d.qualifier = SPFDirectiveQualifier.Pass then
        some (.ok ⟨true, some (mechToString d.mechanism ++ " matched.")⟩)
      else includeScan matcher rest

/-- The `match` methods of the mechanism classes. The fuel bounds the
nesting depth of `include:` sub-resolutions (the source recursion is
unbounded); `none` means no bound suffices. -/
def mechMatch (env : DnsEnv) (ips : IPOps) (ctx : SPFContext) (nowSec : Nat) :
    Nat → SPFMechanism → Option (Except SPFErr SPFMechanismResult)
  | 0, _ => none
  | fuel + 1, m =>
    match m with
    | .all => some (.ok ⟨true, none⟩)
    | .includeMech d =>
      match SPFRecord.resolve env ips ctx nowSec d false with
      | .error e => some (.error e)
      | .ok none => some (.error ⟨.networking, "Could not include SPF record for: " ++ d⟩)
      | .ok (some rec) => includeScan (mechMatch env ips ctx nowSec fuel) rec.directives
    | .a dom =>
      let host := dom.getD ctx.emailDomain
      if ctx.clientIsV4 then
        match env.a4 host with
        | none => some (.error ⟨.other, "dns lookup failed"⟩)
        | some raws =>
          match decodeAddrs ips.decode4 raws with
          | .error e => some (.error e)
          | .ok addrs => some (.ok (aScan ctx "IPv4" addrs))
      else
        match env.a6 host with
        | none => some (.error ⟨.other, "dns lookup failed"⟩)
        | some raws =>
          match decodeAddrs ips.decode6 raws with
          | .error e => some (.error e)
          | .ok addrs => some (.ok (aScan ctx "IPv6" addrs))
    | .mx dom =>
      let host := dom.getD ctx.emailDomain
      match env.mxq host with
      | none => some (.error ⟨.other, "dns lookup failed"⟩)
      | some exchanges =>
        match mxGather env ips ctx.clientIsV4 exchanges with
        | .error e => some (.error e)
        | .ok addrs =>
          some (.ok (mxScan ctx (if ctx.clientIsV4 then "IPv4" else "IPv6") addrs))
    | .ptr dom =>
      match env.rev ctx.clientIPEnc with
      | none => some (.error ⟨.other, "dns lookup failed"⟩)
      | some hostnames => some (.ok (ptrScan ctx dom hostnames))
    | .ip4 addr =>
      if ctx.clientIsV4 = false then some (.ok ⟨false, none⟩)
      else if addr.hasCidr && addr.cidrMatchClient then
        some (.ok ⟨true, some (ctx.clientIPEnc ++ " is in CIDR range of " ++ addr.enc)⟩)
      else if !addr.hasCidr && addr.equalsClient then
        some (.ok ⟨true, some (ctx.clientIPEnc ++ " is listed as IPv4 address")⟩)
      else some (.ok ⟨false, none⟩)
    | .ip6 addr =>
      if ctx.clientIsV4 = true then some (.ok ⟨false, none⟩)
      else if addr.hasCidr && addr.cidrMatchClient then
        some (.ok ⟨true, some (ctx.clientIPEnc ++ " is in CIDR range of " ++ addr.enc)⟩)
      else if !addr.hasCidr && addr.equalsClient then
        some (.ok ⟨true, some (ctx.clientIPEnc ++ " is listed as IPv6 address")⟩)
      else some (.ok ⟨false, none⟩)
    | .existsMech h =>
      match env.a4 h, env.a6 h with
      | none, _ => some (.error ⟨.other, "dns lookup failed"⟩)
      | _, none => some (.error ⟨.other, "dns lookup failed"⟩)
      | some r4, some r6 =>
        if r4.length > 0 && r6.length > 0 then
          some (.ok ⟨true, some ("IPv4 and IPv6 RR's found for hostname: " ++ h)⟩)
        else if r4.length > 0 then
          some (.ok ⟨true, some ("IPv4 RR's found for hostname: " ++ h)⟩)
        else if r6.length > 0 then
          some (.ok ⟨true, some ("IPv6 RR's found for hostname: " ++ h)⟩)
        else
          some (.ok ⟨false, some ("No RR's found for hostname: " ++ h)⟩)

/-! ## The validator (`SPFValidator.ts`) -/

/-- `record.getModifierOfType(SPFRedirectModifier)`: first redirect
modifier, if any. -/
def getRedirect : List SPFModifier → Option String
  | [] => none
  | .redirect h :: _ => some h
  | _ :: rest => getRedirect rest

/-- `record.getModifierOfType(SPFExplainModifier)`: first exp modifier. -/
def getExplain : List SPFModifier → Option String
  | [] => none
  | .exp h :: _ => some h
  | _ :: rest => getExplain rest

/-- The `catch` block of `SPFValidator.validate`: `SPFSyntacticalError`
becomes a `PermError` result, `SPFNetworkingError` a `TempError` result,
anything else is rethrown to the caller. -/
def catchToOut (e : SPFErr) : ValidateOut :=
  match e.kind with
  | .syntactical => .result ⟨.PermError, none, some e.msg, none⟩
  | .networking => .result ⟨.TempError, none, some e.msg, none⟩
  | .other => .exn e.msg

/-- The directive loop of `SPFValidator.validate`: first match wins with
the qualifier choosing the result type; a matching `Fail` directive with
an `exp=` modifier resolves the explanation inside the same `try`, so an
explanation failure is converted by the `catch`. The fall-through result
is `None` with comment `"No matching directives"`. -/
def dirLoop (env : DnsEnv) (ips : IPOps) (ctx : SPFContext) (nowSec : Nat)
    (fuel : Nat) (record : SPFRecord) : List SPFDirective → Option ValidateOut
  | [] => some (.result ⟨.None, none, some "No matching directives", none⟩)
  | d :: rest =>
    match mechMatch env ips ctx nowSec fuel d.mechanism with
    | none => none
    | some (.error e) => some (catchToOut e)
    | some (.ok r) =>
      match d.qualifier with
      | .Fail =>
        if r.matched then
          match getExplain record.modifiers with
          | none => some (.result ⟨.Fail, some d.mechanism, r.reason, none⟩)
          | some h =>
            match SPFExplainRecord.resolve env ctx nowSec h with
            | .error e => some (catchToOut e)
            | .ok contents => some (.result ⟨.Fail, some d.mechanism, r.reason, some contents⟩)
        else dirLoop env ips ctx nowSec fuel record rest
      | .Pass =>
        if r.matched then some (.result ⟨.Pass, some d.mechanism, r.reason, none⟩)
        else dirLoop env ips ctx nowSec fuel record rest
      | .Neutral =>
        if r.matched then some (.result ⟨.Neutral, some d.mechanism, r.reason, none⟩)
        else dirLoop env ips ctx nowSec fuel record rest
      | .SoftFail =>
        if r.matched then some (.result ⟨.SoftFail, some d.mechanism, r.reason, none⟩)
        else dirLoop env ips ctx nowSec fuel record rest

/-- `SPFValidator.validate`: resolve the record (`null` gives a `None`
result), then — **before any directive is evaluated** — follow a
`redirect=` modifier by recursing on its hostname, otherwise run the
directive loop. The fuel bounds the recursion depth; `none` means no
bound suffices. -/
def SPFValidator.validate (env : DnsEnv) (ips : IPOps) (ctx : SPFContext)
    (nowSec : Nat) : Nat → String → Option ValidateOut
  | 0, _ => none
  | fuel + 1, hostname =>
    match SPFRecord.resolve env ips ctx nowSec hostname false with
    | .error e => some (catchToOut e)
    | .ok none => some (.result ⟨.None, none, some ("could not resolve " ++ hostname), none⟩)
    | .ok (some record) =>
      match getRedirect record.modifiers with
      | some h => SPFValidator.validate env ips ctx nowSec fuel h
      | none => dirLoop env ips ctx nowSec fuel record record.directives

/-! ## Lowercase invariant (for the decoder) -/

/-- A string is fixed by ASCII lowering. -/
def lcInvStr (s : String) : Bool := lcChars s.data == s.data

/-- Every string argument stored in a mechanism is fixed by ASCII
lowering (the parsed `ip4`/`ip6` payloads are external address values,
not strings). -/
def mechLowerB : SPFMechanism → Bool
  | .all => true
  | .includeMech d => lcInvStr d
  | .a (some d) => lcInvStr d
  | .a none => true
  | .mx (some d) => lcInvStr d
  | .mx none => true
  | .ptr d => lcInvStr d
  | .ip4 _ => true
  | .ip6 _ => true
  | .existsMech h => lcInvStr h

/-- The hostname argument of a modifier is fixed by ASCII lowering. -/
def modLowerB : SPFModifier → Bool
  | .redirect h => lcInvStr h
  | .exp h => lcInvStr h

/-- Every string argument stored anywhere in a record is fixed by ASCII
lowering. -/
def recLowerB (r : SPFRecord) : Bool :=
  r.directives.all (fun d => mechLowerB d.mechanism) && r.modifiers.all modLowerB

/-! ## Concrete evaluation scenarios used by the claims -/

/-- IP oracle in which every decode fails (no scenario below parses an
address). -/
def ips0 : IPOps := ⟨fun _ => none, fun _ => none⟩

/-- The session context of RFC 7208 §7.4 / spec §8.5:
`sender_local = "strong-bad"`, `sender_domain = "email.example.com"`,
IPv4 client `192.0.2.3`. -/
def ctx0 : SPFContext :=
  ⟨"strong-bad@email.example.com", "receiver.example", "helo.example",
   "192.0.2.3", true, "email.example.com", "strong-bad"⟩

/-- Two domains whose only directive is `~all` resp. `?all`. -/
def env1 : DnsEnv where
  txt := fun h =>
    if h = "tilde.example" then some [["v=spf1 ~all"]]
    else if h = "question.example" then some [["v=spf1 ?all"]]
    else none
  a4 := fun _ => none
  a6 := fun _ => none
  mxq := fun _ => none
  rev := fun _ => none

/-- A record carrying both `+all` and `redirect=other.example`, with the
redirect target publishing `-all`. -/
def env2 : DnsEnv where
  txt := fun h =>
    if h = "a.test" then some [["v=spf1 +all redirect=other.example"]]
    else if h = "other.example" then some [["v=spf1 -all"]]
    else none
  a4 := fun _ => none
  a6 := fun _ => none
  mxq := fun _ => none
  rev := fun _ => none

/-- An include whose target has no SPF record, and an include whose target
record is `-all +all`. -/
def env3 : DnsEnv where
  txt := fun h =>
    if h = "inc3.example" then some [["v=spf1 include:nospf.example"]]
    else if h = "nospf.example" then some [["hello there"]]
    else if h = "ovr3.example" then some [["v=spf1 include:sub3.example"]]
    else if h = "sub3.example" then some [["v=spf1 -all +all"]]
    else none
  a4 := fun _ => none
  a6 := fun _ => none
  mxq := fun _ => none
  rev := fun _ => none

/-- A chain of 11 nested `include:` directives ending in `all` (12 TXT
fetches beyond the initial one), plus a domain whose `a:` target is
NXDOMAIN. -/
def env4 : DnsEnv where
  txt := fun h =>
    if h = "c00.example" then some [["v=spf1 include:c01.example"]]
    else if h = "c01.example" then some [["v=spf1 include:c02.example"]]
    else if h = "c02.example" then some [["v=spf1 include:c03.example"]]
    else if h = "c03.example" then some [["v=spf1 include:c04.example"]]
    else if h = "c04.example" then some [["v=spf1 include:c05.example"]]
    else if h = "c05.example" then some [["v=spf1 include:c06.example"]]
    else if h = "c06.example" then some [["v=spf1 include:c07.example"]]
    else if h = "c07.example" then some [["v=spf1 include:c08.example"]]
    else if h = "c08.example" then some [["v=spf1 include:c09.example"]]
    else if h = "c09.example" then some [["v=spf1 include:c10.example"]]
    else if h = "c10.example" then some [["v=spf1 include:c11.example"]]
    else if h = "c11.example" then some [["v=spf1 all"]]
    else if h = "v4.example" then some [["v=spf1 a:x.example"]]
    else none
  a4 := fun _ => none
  a6 := fun _ => none
  mxq := fun _ => none
  rev := fun _ => none

/-- Mutual `include:` loop between `a.example` and `b.example`, and mutual
`redirect=` loop between `ra.example` and `rb.example`. -/
def loopEnv : DnsEnv where
  txt := fun h =>
    if h = "a.example" then some [["v=spf1 include:b.example"]]
    else if h = "b.example" then some [["v=spf1 include:a.example"]]
    else if h = "ra.example" then some [["v=spf1 redirect=rb.example"]]
    else if h = "rb.example" then some [["v=spf1 redirect=ra.example"]]
    else none
  a4 := fun _ => none
  a6 := fun _ => none
  mxq := fun _ => none
  rev := fun _ => none

/-- A domain publishing two `v=spf1` TXT records, and a domain whose TXT
records carry no SPF record at all. -/
def env6 : DnsEnv where
  txt := fun h =>
    if h = "two.example" then some [["v=spf1 -all"], ["v=spf1 +all"]]
    else if h = "nospf6.example" then some [["hello"], ["world"]]
    else none
  a4 := fun _ => none
  a6 := fun _ => none
  mxq := fun _ => none
  rev := fun _ => none

/-- Domains failing with `-all` while carrying an `exp=` modifier whose
resolution fails: `why.example` has zero TXT records, `bad.example` has an
explanation text with an invalid macro letter. -/
def env7 : DnsEnv where
  txt := fun h =>
    if h = "f7.example" then some [["v=spf1 -all exp=why.example"]]
    else if h = "f7m.example" then some [["v=spf1 -all exp=bad.example"]]
    else if h = "why.example" then some []
    else if h = "bad.example" then some [["%\x7bq\x7d"]]
    else none
  a4 := fun _ => none
  a6 := fun _ => none
  mxq := fun _ => none
  rev := fun _ => none

/-- A record whose only directive (an include of a `-all` record) is
evaluated without a match, with no redirect and no `all`. -/
def env8 : DnsEnv where
  txt := fun h =>
    if h = "n8.example" then some [["v=spf1 include:s8.example"]]
    else if h = "s8.example" then some [["v=spf1 -all"]]
    else none
  a4 := fun _ => none
  a6 := fun _ => none
  mxq := fun _ => none
  rev := fun _ => none

/-- The record of `n8.example`, as decoded. -/
def rec8 : SPFRecord := ⟨[⟨.Pass, .includeMech "s8.example"⟩], []⟩

/-! ## Helper lemmas -/

/-- Packing a valid code point and unpacking it is the identity. -/
theorem toNat_ofNat_valid (n : Nat) (h : n.isValidChar) : (Char.ofNat n).toNat = n := by
  rw [Char.ofNat, dif_pos h]
  simp [Char.ofNatAux, Char.toNat, UInt32.toNat]

/-- ASCII lowering of a character is idempotent. -/
theorem lcChar_idem (c : Char) : lcChar (lcChar c) = lcChar c := by
  unfold lcChar
  by_cases h : 65 ≤ c.toNat ∧ c.toNat ≤ 90
  · rw [if_pos h]
    have hv : Nat.isValidChar (c.toNat + 32) := Or.inl (by omega)
    have ht : (Char.ofNat (c.toNat + 32)).toNat = c.toNat + 32 := toNat_ofNat_valid _ hv
    rw [if_neg]
    intro hcon
    rw [ht] at hcon
    omega
  · rw [if_neg h, if_neg h]

/-- ASCII lowering of a character list is idempotent. -/
theorem lcChars_idem (l : List Char) : lcChars (lcChars l) = lcChars l := by
  induction l with
  | nil => rfl
  | cons c rest ih =>
    simp only [lcChars, List.map_cons] at *
    rw [lcChar_idem]
    exact congrArg _ ih

/-- A freshly lowered string satisfies the lowercase invariant. -/
theorem lcInvStr_of_lcChars (l : List Char) : lcInvStr (String.mk (lcChars l)) = true := by
  simp [lcInvStr, lcChars_idem]

/-- Members of a successful `exMapM` image come from applying the function
to members of the source list. -/
theorem exMapM_mem {ε α β : Type} (f : α → Except ε β) :
    ∀ (xs : List α) (ys : List β), exMapM f xs = .ok ys →
      ∀ y ∈ ys, ∃ x ∈ xs, f x = .ok y := by
  intro xs
  induction xs with
  | nil =>
    intro ys h y hy
    simp only [exMapM] at h
    cases h
    cases hy
  | cons x rest ih =>
    intro ys h y hy
    simp only [exMapM] at h
    cases hfx : f x with
    | error e => rw [hfx] at h; cases h
    | ok b =>
      rw [hfx] at h
      cases hrest : exMapM f rest with
      | error e => rw [hrest] at h; cases h
      | ok bs =>
        rw [hrest] at h
        cases h
        rcases List.mem_cons.mp hy with hya | hyb
        · exact ⟨x, List.mem_cons_self x rest, hya ▸ hfx⟩
        · obtain ⟨x', hx', hfx'⟩ := ih bs hrest y hyb
          exact ⟨x', List.mem_cons_of_mem x hx', hfx'⟩

/-- A directive term's value produced by `classifyTerm` is lowered. -/
theorem classifyTerm_dir_value_inv (pair : List Char) (k : String) (v : String)
    (h : classifyTerm pair = .dir k (some v)) : lcInvStr v = true := by
  unfold classifyTerm at h
  cases hc : chIndexOf pair ':' with
  | none =>
    cases he : chIndexOf pair '=' with
    | none => rw [hc, he] at h; cases h
    | some j =>
      rw [hc, he] at h
      simp only [Option.isSome_none, Bool.false_eq_true, if_false] at h
      cases h
  | some i =>
    cases he : chIndexOf pair '=' with
    | none =>
      rw [hc, he] at h
      simp only [Option.isSome_some, if_true] at h
      cases h
      exact lcInvStr_of_lcChars _
    | some j =>
      rw [hc, he] at h
      simp only [Option.isSome_some, if_true] at h
      cases h
      exact lcInvStr_of_lcChars _

/-- A modifier term's value produced by `classifyTerm` is lowered. -/
theorem classifyTerm_mod_value_inv (pair : List Char) (k : String) (v : String)
    (h : classifyTerm pair = .mod k v) : lcInvStr v = true := by
  unfold classifyTerm at h
  cases hc : chIndexOf pair ':' with
  | none =>
    cases he : chIndexOf pair '=' with
    | none => rw [hc, he] at h; cases h
    | some j =>
      rw [hc, he] at h
      simp only [Option.isSome_none, Bool.false_eq_true, if_false] at h
      cases h
      exact lcInvStr_of_lcChars _
  | some i =>
    cases he : chIndexOf pair '=' with
    | none =>
      rw [hc, he] at h
      simp only [Option.isSome_some, if_true] at h
      cases h
    | some j =>
      rw [hc, he] at h
      simp only [Option.isSome_some, if_true] at h
      cases h

/-- `spf_parse_mechanism` stores only (parts of) its value argument as
strings, so a lowered value yields a lowered mechanism. -/
theorem spf_parse_mechanism_inv (ips : IPOps) (key : String) (value : Option String)
    (hv : ∀ s, value = some s → lcInvStr s = true) (m : SPFMechanism)
    (h : spf_parse_mechanism ips key value = .ok m) : mechLowerB m = true := by
  unfold spf_parse_mechanism at h
  split at h
  · cases value with
    | some s => cases h
    | none => cases h; rfl
  · split at h
    · cases value with
      | none => cases h
      | some s => cases h; exact hv s rfl
    · split at h
      · cases h
        cases value with
        | none => rfl
        | some s => exact hv s rfl
      · split at h
        · cases h
          cases value with
          | none => rfl
          | some s => exact hv s rfl
        · split at h
          · cases value with
            | none => cases h
            | some s => cases h; exact hv s rfl
          · split at h
            · cases value with
              | none => cases h
              | some s =>
                simp only [] at h
                cases hdec : ips.decode4 s with
                | none => rw [hdec] at h; cases h
                | some addr => rw [hdec] at h; cases h; rfl
            · split at h
              · cases value with
                | none => cases h
                | some s =>
                  simp only [] at h
                  cases hdec : ips.decode6 s with
                  | none => rw [hdec] at h; cases h
                  | some addr => rw [hdec] at h; cases h; rfl
              · split at h
                · cases value with
                  | none => cases h
                  | some s => cases h; exact hv s rfl
                · cases h

/-- `SPFDirective.parse` stores only strings coming from its value, so a
lowered value yields a lowered directive mechanism. -/
theorem directive_parse_inv (ips : IPOps) (key : String) (value : Option String)
    (hv : ∀ s, value = some s → lcInvStr s = true) (d : SPFDirective)
    (h : SPFDirective.parse ips key value = .ok d) : mechLowerB d.mechanism = true := by
  unfold SPFDirective.parse at h
  cases hk : key.data with
  | nil =>
    rw [hk] at h
    cases hm : spf_parse_mechanism ips key value with
    | error e => rw [hm] at h; cases h
    | ok m =>
      rw [hm] at h
      cases h
      exact spf_parse_mechanism_inv ips key value hv m hm
  | cons c rest =>
    rw [hk] at h
    simp only [] at h
    by_cases hs : c = '+' ∨ c = '-' ∨ c = '~' ∨ c = '?'
    · rw [if_pos hs] at h
      cases hq : spf_directive_qualifier_parse (String.mk [c]) with
      | error e => rw [hq] at h; cases h
      | ok q =>
        rw [hq] at h
        cases hm : spf_parse_mechanism ips (String.mk rest) value with
        | error e => rw [hm] at h; cases h
        | ok m =>
          rw [hm] at h
          cases h
          exact spf_parse_mechanism_inv ips (String.mk rest) value hv m hm
    · rw [if_neg hs] at h
      cases hm : spf_parse_mechanism ips key value with
      | error e => rw [hm] at h; cases h
      | ok m =>
        rw [hm] at h
        cases h
        exact spf_parse_mechanism_inv ips key value hv m hm

/-- `SPFModifier.parse` stores its value as the hostname, so a lowered
value yields a lowered modifier. -/
theorem modifier_parse_inv (key : String) (v : String)
    (hv : lcInvStr v = true) (m : SPFModifier)
    (h : SPFModifier.parse key (some v) = .ok m) : modLowerB m = true := by
  unfold SPFModifier.parse at h
  split at h
  · cases h; exact hv
  · split at h
    · cases h; exact hv
    · cases h

/-! ## Claim C10 -/

/-- C10: `SPFRecord.decode` lowercases the key and the value of every term
before building directives and modifiers, so every string argument stored
in the resulting record (include/a/mx/ptr/exists domains, redirect/exp
hostnames) is fixed by ASCII lowering. -/
theorem c10_decode_lowercases (ips : IPOps) (ctx : SPFContext) (nowSec : Nat)
    (raw : String) (exp : Bool) (rec : SPFRecord)
    (h : SPFRecord.decode ips ctx nowSec raw exp = .ok rec) : recLowerB rec = true := by
  unfold SPFRecord.decode at h
  cases hp : SPFMacroProcessor.process ctx nowSec raw exp with
  | error e => rw [hp] at h; cases h
  | ok processed =>
    rw [hp] at h
    simp only [] at h
    cases hd : exMapM (fun kv => SPFDirective.parse ips kv.1 kv.2)
        (dirPairsOf ((splitWs (chTrim (collapseWs processed.data))).map classifyTerm)) with
    | error e => rw [hd] at h; cases h
    | ok directives =>
      rw [hd] at h
      cases hm : exMapM (fun kv => SPFModifier.parse kv.1 (some kv.2))
          (modPairsOf ((splitWs (chTrim (collapseWs processed.data))).map classifyTerm)) with
      | error e => rw [hm] at h; cases h
      | ok modifiers =>
        rw [hm] at h
        cases h
        unfold recLowerB
        rw [Bool.and_eq_true]
        constructor
        · rw [List.all_eq_true]
          intro d hdmem
          obtain ⟨kv, hkvmem, hparse⟩ := exMapM_mem _ _ _ hd d hdmem
          unfold dirPairsOf at hkvmem
          obtain ⟨c, hcmem, hc⟩ := List.mem_filterMap.mp hkvmem
          obtain ⟨t, _, ht⟩ := List.mem_map.mp hcmem
          cases c with
          | dir k v =>
            simp only [] at hc
            cases hc
            refine directive_parse_inv ips k v ?_ d hparse
            intro s hvs
            subst hvs
            exact classifyTerm_dir_value_inv t k s ht
          | mod k v => cases hc
        · rw [List.all_eq_true]
          intro m hmmem
          obtain ⟨kv, hkvmem, hparse⟩ := exMapM_mem _ _ _ hm m hmmem
          unfold modPairsOf at hkvmem
          obtain ⟨c, hcmem, hc⟩ := List.mem_filterMap.mp hkvmem
          obtain ⟨t, _, ht⟩ := List.mem_map.mp hcmem
          cases c with
          | dir k v => cases hc
          | mod k v =>
            simp only [] at hc
            cases hc
            exact modifier_parse_inv k v (classifyTerm_mod_value_inv t k v ht) m hparse

/-- C10 witness: decoding a record published with mixed case yields
lowercased stored strings. -/
theorem c10_decode_lowercases_witness :
    SPFRecord.decode ips0 ctx0 0 " INCLUDE:MiXeD.ExAmPle REDIRECT=UP.example" false
      = .ok ⟨[⟨.Pass, .includeMech "mixed.example"⟩], [.redirect "up.example"]⟩ ∧
    recLowerB ⟨[⟨.Pass, .includeMech "mixed.example"⟩], [.redirect "up.example"]⟩ = true :=
  ⟨rfl, c10_decode_lowercases ips0 ctx0 0 " INCLUDE:MiXeD.ExAmPle REDIRECT=UP.example" false
    ⟨[⟨.Pass, .includeMech "mixed.example"⟩], [.redirect "up.example"]⟩ rfl⟩

/-! ## Claim C1 -/

/-- C1 (code evaluated at the failing input): the source maps the sigil
`?` to `SoftFail` and `~` to `Neutral` — the transpose of the RFC 7208
mapping the claim states — so a record whose only matching directive is
`~all` evaluates to `Neutral` and one with `?all` evaluates to
`SoftFail`. -/
theorem c1_qualifier_sigil_code_bug :
    spf_directive_qualifier_parse "~" = .ok SPFDirectiveQualifier.Neutral ∧
    spf_directive_qualifier_parse "?" = .ok SPFDirectiveQualifier.SoftFail ∧
    SPFValidator.validate env1 ips0 ctx0 0 5 "tilde.example"
      = some (.result ⟨.Neutral, some .all, none, none⟩) ∧
    SPFValidator.validate env1 ips0 ctx0 0 5 "question.example"
      = some (.result ⟨.SoftFail, some .all, none, none⟩) ∧
    SPFResultType.Neutral ≠ SPFResultType.SoftFail :=
  ⟨rfl, rfl, rfl, rfl, by decide⟩

/-! ## Claim C9 -/

/-- C9 counterexample: with `sender_local = "strong-bad"`, the macro
token `%` `lr-` in braces expands to `strong-bad`, not `bad-strong`
(the processor always splits on `.`, never on the macro delimiter), and
`%` `l1r-` in braces also expands to `strong-bad`, not `strong`. -/
theorem c9_macro_counterexample :
    SPFMacroProcessor.process ctx0 0 "%\x7blr-\x7d" false = .ok "strong-bad" ∧
    ("strong-bad" : String) ≠ "bad-strong" ∧
    SPFMacroProcessor.process ctx0 0 "%\x7bl1r-\x7d" false = .ok "strong-bad" ∧
    ("strong-bad" : String) ≠ "strong" :=
  ⟨rfl, by decide, rfl, by decide⟩

/-- C9 amended: for the claim's context the processor yields
`strong-bad@email.example.com`, `example.com`, `com.example.email` and
`strong-bad` for the first four macros as claimed, but `strong-bad`
(not `bad-strong` / `strong`) for the last two, because the base string
is split on dots only and the delimiter is used solely for re-joining. -/
theorem c9_macro_expansion :
    SPFMacroProcessor.process ctx0 0 "%\x7bs\x7d" false = .ok "strong-bad@email.example.com" ∧
    SPFMacroProcessor.process ctx0 0 "%\x7bd2\x7d" false = .ok "example.com" ∧
    SPFMacroProcessor.process ctx0 0 "%\x7bdr\x7d" false = .ok "com.example.email" ∧
    SPFMacroProcessor.process ctx0 0 "%\x7bl-\x7d" false = .ok "strong-bad" ∧
    SPFMacroProcessor.process ctx0 0 "%\x7blr-\x7d" false = .ok "strong-bad" ∧
    SPFMacroProcessor.process ctx0 0 "%\x7bl1r-\x7d" false = .ok "strong-bad" :=
  ⟨rfl, rfl, rfl, rfl, rfl, rfl⟩

/-! ## Claim C4 -/

/-- C4 (code evaluated at the failing inputs): no DNS-lookup or
void-lookup budget exists. A chain of 11 nested `include:` directives
evaluates to `Pass` (never `PermError`), and an `a:` mechanism whose
target is NXDOMAIN escapes as a raw exception instead of counting toward
a void-lookup budget. -/
theorem c4_no_dns_budget :
    SPFValidator.validate env4 ips0 ctx0 0 20 "c00.example"
      = some (.result ⟨.Pass, some (.includeMech "c01.example"),
          some "include:c02.example matched.", none⟩) ∧
    SPFResultType.Pass ≠ SPFResultType.PermError ∧
    SPFValidator.validate env4 ips0 ctx0 0 20 "v4.example" = some (.exn "dns lookup failed") :=
  ⟨rfl, by decide, rfl⟩

/-! ## Claim C7 -/

/-- C7 (code evaluated at the failing inputs): when a matching `-all`
carries `exp=` and the explanation resolution fails, the failure replaces
the `Fail` result — an empty TXT answer becomes a `TempError` result and
a macro error in the explanation text becomes a `PermError` result. -/
theorem c7_explain_failure_changes_result :
    SPFValidator.validate env7 ips0 ctx0 0 5 "f7.example"
      = some (.result ⟨.TempError, none,
          some "Could not find any TXT records for hostname: why.example", none⟩) ∧
    SPFValidator.validate env7 ips0 ctx0 0 5 "f7m.example"
      = some (.result ⟨.PermError, none, some "Invalid letter.", none⟩) ∧
    SPFResultType.TempError ≠ SPFResultType.Fail ∧
    SPFResultType.PermError ≠ SPFResultType.Fail :=
  ⟨rfl, rfl, by decide, by decide⟩

/-! ## Claim C2 -/

/-- C2 counterexample: `"v=spf1 +all redirect=other.example"` does not
return `Pass`; the validator follows the redirect before evaluating any
directive and here returns the `Fail` of `other.example`. -/
theorem c2_redirect_counterexample :
    SPFValidator.validate env2 ips0 ctx0 0 5 "a.test"
      = some (.result ⟨.Fail, some .all, none, none⟩) ∧
    SPFResultType.Fail ≠ SPFResultType.Pass :=
  ⟨rfl, by decide⟩

/-- C2 amended: whenever the resolved record carries a `redirect=`
modifier, the validator recurses on the redirect target immediately — the
record's directives are never evaluated — and the redirect target's
result is final. -/
theorem c2_redirect_immediate (env : DnsEnv) (ips : IPOps) (ctx : SPFContext)
    (nowSec fuel : Nat) (hostname target : String) (record : SPFRecord)
    (hres : SPFRecord.resolve env ips ctx nowSec hostname false = .ok (some record))
    (hred : getRedirect record.modifiers = some target) :
    SPFValidator.validate env ips ctx nowSec (fuel + 1) hostname
      = SPFValidator.validate env ips ctx nowSec fuel target := by
  have h1 : SPFValidator.validate env ips ctx nowSec (fuel + 1) hostname
      = match SPFRecord.resolve env ips ctx nowSec hostname false with
        | .error e => some (catchToOut e)
        | .ok none =>
          some (.result ⟨.None, none, some ("could not resolve " ++ hostname), none⟩)
        | .ok (some record) =>
          match getRedirect record.modifiers with
          | some h => SPFValidator.validate env ips ctx nowSec fuel h
          | none => dirLoop env ips ctx nowSec fuel record record.directives := rfl
  rw [h1, hres]
  simp only []
  rw [hred]

/-- C2 witness: the amended statement at the concrete scenario. -/
theorem c2_redirect_immediate_witness :
    SPFRecord.resolve env2 ips0 ctx0 0 "a.test" false
      = .ok (some ⟨[⟨.Pass, .all⟩], [.redirect "other.example"]⟩) ∧
    getRedirect [SPFModifier.redirect "other.example"] = some "other.example" ∧
    SPFValidator.validate env2 ips0 ctx0 0 5 "a.test"
      = SPFValidator.validate env2 ips0 ctx0 0 4 "other.example" :=
  ⟨rfl, rfl,
   c2_redirect_immediate env2 ips0 ctx0 0 4 "a.test" "other.example"
     ⟨[⟨.Pass, .all⟩], [.redirect "other.example"]⟩ rfl rfl⟩

/-! ## Claim C6 -/

/-- C6 counterexample: a domain publishing two `v=spf1` TXT records does
not yield `PermError`; the first record is selected and evaluated (here
its `-all` gives `Fail`). -/
theorem c6_multiple_records_counterexample :
    SPFValidator.validate env6 ips0 ctx0 0 5 "two.example"
      = some (.result ⟨.Fail, some .all, none, none⟩) ∧
    SPFResultType.Fail ≠ SPFResultType.PermError :=
  ⟨rfl, by decide⟩

/-- C6 amended: zero `v=spf1` candidates yield a `None` result as
claimed, but with two or more candidates the **first** is selected and
decoded — never `PermError`. -/
theorem c6_record_selection :
    (∀ (env : DnsEnv) (ips : IPOps) (ctx : SPFContext) (nowSec fuel : Nat)
       (hostname : String) (recs : List (List String)),
       env.txt hostname = some recs → spfCandidates recs = [] →
       SPFValidator.validate env ips ctx nowSec (fuel + 1) hostname
         = some (.result ⟨.None, none, some ("could not resolve " ++ hostname), none⟩)) ∧
    (∀ (env : DnsEnv) (ips : IPOps) (ctx : SPFContext) (nowSec : Nat)
       (hostname : String) (recs : List (List String)) (r : String) (rest : List String),
       env.txt hostname = some recs → spfCandidates recs = r :: rest →
       SPFRecord.resolve env ips ctx nowSec hostname false
         = (SPFRecord.decode ips ctx nowSec (String.mk (r.data.drop 6)) false).map some) := by
  constructor
  · intro env ips ctx nowSec fuel hostname recs htxt hcand
    have hres : SPFRecord.resolve env ips ctx nowSec hostname false = .ok none := by
      unfold SPFRecord.resolve
      rw [htxt]
      simp only []
      rw [hcand]
    have h1 : SPFValidator.validate env ips ctx nowSec (fuel + 1) hostname
        = match SPFRecord.resolve env ips ctx nowSec hostname false with
          | .error e => some (catchToOut e)
          | .ok none =>
            some (.result ⟨.None, none, some ("could not resolve " ++ hostname), none⟩)
          | .ok (some record) =>
            match getRedirect record.modifiers with
            | some h => SPFValidator.validate env ips ctx nowSec fuel h
            | none => dirLoop env ips ctx nowSec fuel record record.directives := rfl
    rw [h1, hres]
  · intro env ips ctx nowSec hostname recs r rest htxt hcand
    unfold SPFRecord.resolve
    rw [htxt]
    simp only []
    rw [hcand]
    cases hdec : SPFRecord.decode ips ctx nowSec (String.mk (r.data.drop 6)) false with
    | error e => simp only [hdec, Except.map]
    | ok rec => simp only [hdec, Except.map]

/-- C6 witness: the amended statement at the concrete scenarios. -/
theorem c6_record_selection_witness :
    SPFValidator.validate env6 ips0 ctx0 0 5 "nospf6.example"
      = some (.result ⟨.None, none, some "could not resolve nospf6.example", none⟩) ∧
    SPFRecord.resolve env6 ips0 ctx0 0 "two.example" false
      = (SPFRecord.decode ips0 ctx0 0 " -all" false).map some :=
  ⟨c6_record_selection.1 env6 ips0 ctx0 0 4 "nospf6.example" [["hello"], ["world"]] rfl rfl,
   c6_record_selection.2 env6 ips0 ctx0 0 "two.example" [["v=spf1 -all"], ["v=spf1 +all"]]
     "v=spf1 -all" ["v=spf1 +all"] rfl rfl⟩

/-! ## Claim C8 -/

/-- C8 counterexample: when every directive is evaluated without a match
and the record has no redirect, the validator returns a `None` result
("No matching directives"), not `Neutral`. -/
theorem c8_fallthrough_counterexample :
    SPFValidator.validate env8 ips0 ctx0 0 5 "n8.example"
      = some (.result ⟨.None, none, some "No matching directives", none⟩) ∧
    SPFResultType.None ≠ SPFResultType.Neutral :=
  ⟨rfl, by decide⟩

/-- The directive loop returns the fall-through result when no directive
matches. -/
theorem dirLoop_no_match (env : DnsEnv) (ips : IPOps) (ctx : SPFContext)
    (nowSec fuel : Nat) (record : SPFRecord) :
    ∀ ds : List SPFDirective,
      (∀ d ∈ ds, ∃ r, mechMatch env ips ctx nowSec fuel d.mechanism = some (.ok r) ∧
        r.matched = false) →
      dirLoop env ips ctx nowSec fuel record ds
        = some (.result ⟨.None, none, some "No matching directives", none⟩) := by
  intro ds
  induction ds with
  | nil => intro _; rfl
  | cons d rest ih =>
    intro hall
    obtain ⟨r, hm, hf⟩ := hall d (List.mem_cons_self d rest)
    have ih' := ih fun d' hd' => hall d' (List.mem_cons_of_mem d hd')
    unfold dirLoop
    rw [hm]
    simp only []
    cases hq : d.qualifier
    all_goals simp only [hf, Bool.false_eq_true, if_false]
    all_goals exact ih'

/-- C8 amended: with no redirect and every directive evaluated without a
match, `validate` returns a result of type `None` with comment
`"No matching directives"`. -/
theorem c8_fallthrough_none (env : DnsEnv) (ips : IPOps) (ctx : SPFContext)
    (nowSec fuel : Nat) (hostname : String) (record : SPFRecord)
    (hres : SPFRecord.resolve env ips ctx nowSec hostname false = .ok (some record))
    (hred : getRedirect record.modifiers = none)
    (hall : ∀ d ∈ record.directives,
      ∃ r, mechMatch env ips ctx nowSec fuel d.mechanism = some (.ok r) ∧
        r.matched = false) :
    SPFValidator.validate env ips ctx nowSec (fuel + 1) hostname
      = some (.result ⟨.None, none, some "No matching directives", none⟩) := by
  have h1 : SPFValidator.validate env ips ctx nowSec (fuel + 1) hostname
      = match SPFRecord.resolve env ips ctx nowSec hostname false with
        | .error e => some (catchToOut e)
        | .ok none =>
          some (.result ⟨.None, none, some ("could not resolve " ++ hostname), none⟩)
        | .ok (some record) =>
          match getRedirect record.modifiers with
          | some h => SPFValidator.validate env ips ctx nowSec fuel h
          | none => dirLoop env ips ctx nowSec fuel record record.directives := rfl
  rw [h1, hres]
  simp only []
  rw [hred]
  simp only []
  exact dirLoop_no_match env ips ctx nowSec fuel record record.directives hall

/-- C8 witness: the amended statement at the concrete scenario. -/
theorem c8_fallthrough_none_witness :
    SPFValidator.validate env8 ips0 ctx0 0 4 "n8.example"
      = some (.result ⟨.None, none, some "No matching directives", none⟩) :=
  c8_fallthrough_none env8 ips0 ctx0 0 3 "n8.example" rec8 rfl rfl
    (by
      intro d hd
      simp only [rec8, List.mem_singleton] at hd
      subst hd
      exact ⟨⟨false, none⟩, rfl, rfl⟩)

/-! ## Claim C3 -/

/-- C3 counterexample: an include whose target has no SPF record yields a
`TempError` result (the thrown `SPFNetworkingError`), not the `PermError`
the claim states; and an include of `-all +all` **matches** (the `-all`
first match of the included record does not stop the scan), yielding
`Pass`. -/
theorem c3_include_counterexample :
    SPFValidator.validate env3 ips0 ctx0 0 5 "inc3.example"
      = some (.result ⟨.TempError, none,
          some "Could not include SPF record for: nospf.example", none⟩) ∧
    SPFResultType.TempError ≠ SPFResultType.PermError ∧
    SPFValidator.validate env3 ips0 ctx0 0 5 "ovr3.example"
      = some (.result ⟨.Pass, some (.includeMech "sub3.example"),
          some "all matched.", none⟩) :=
  ⟨rfl, by decide, rfl⟩

/-- The include scan matches exactly when some directive of the included
record has a matching mechanism **and** qualifier `Pass`, regardless of
earlier non-`Pass` matches. -/
theorem includeScan_matched_iff
    (matcher : SPFMechanism → Option (Except SPFErr SPFMechanismResult)) :
    ∀ (ds : List SPFDirective) (r : SPFMechanismResult),
      includeScan matcher ds = some (.ok r) →
      (r.matched = true ↔ ∃ d ∈ ds, d.qualifier = SPFDirectiveQualifier.Pass ∧
        ∃ rr, matcher d.mechanism = some (.ok rr) ∧ rr.matched = true) := by
  intro ds
  induction ds with
  | nil =>
    intro r h
    simp only [includeScan] at h
    cases h
    constructor
    · intro ht; cases ht
    · rintro ⟨d, hd, _⟩; cases hd
  | cons d rest ih =>
    intro r h
    simp only [includeScan] at h
    cases hm : matcher d.mechanism with
    | none => rw [hm] at h; cases h
    | some ex =>
      rw [hm] at h
      cases ex with
      | error e => cases h
      | ok r0 =>
        simp only [] at h
        by_cases hc : r0.matched = true ∧ d.qualifier = SPFDirectiveQualifier.Pass
        · rw [if_pos hc] at h
          cases h
          constructor
          · intro _
            exact ⟨d, List.mem_cons_self d rest, hc.2, r0, hm, hc.1⟩
          · intro _; rfl
        · rw [if_neg hc] at h
          have ihr := ih r h
          constructor
          · intro ht
            obtain ⟨d', hd', hq, rr, hmr, hrr⟩ := ihr.mp ht
            exact ⟨d', List.mem_cons_of_mem d hd', hq, rr, hmr, hrr⟩
          · rintro ⟨d', hd', hq, rr, hmr, hrr⟩
            rcases List.mem_cons.mp hd' with heq | hmem
            · subst heq
              rw [hm] at hmr
              cases hmr
              exact absurd ⟨hrr, hq⟩ hc
            · exact ihr.mpr ⟨d', hmem, hq, rr, hmr, hrr⟩

/-- C3 amended: an include whose target record is missing throws
`SPFNetworkingError` (surfacing as `TempError`); an include whose target
resolves scans the included record's directives and matches exactly when
some directive has a matching mechanism with qualifier `Pass`, skipping
(not honouring) any earlier matching `Fail`/`SoftFail`/`Neutral`
directive; no sub-result mapping per RFC 7208 §5.2 exists. -/
theorem c3_include_semantics :
    (∀ (env : DnsEnv) (ips : IPOps) (ctx : SPFContext) (nowSec fuel : Nat) (d : String),
       SPFRecord.resolve env ips ctx nowSec d false = .ok none →
       mechMatch env ips ctx nowSec (fuel + 1) (.includeMech d)
         = some (.error ⟨.networking, "Could not include SPF record for: " ++ d⟩)) ∧
    (∀ (env : DnsEnv) (ips : IPOps) (ctx : SPFContext) (nowSec fuel : Nat)
       (d : String) (rec : SPFRecord),
       SPFRecord.resolve env ips ctx nowSec d false = .ok (some rec) →
       mechMatch env ips ctx nowSec (fuel + 1) (.includeMech d)
         = includeScan (mechMatch env ips ctx nowSec fuel) rec.directives) ∧
    (∀ (matcher : SPFMechanism → Option (Except SPFErr SPFMechanismResult))
       (ds : List SPFDirective) (r : SPFMechanismResult),
       includeScan matcher ds = some (.ok r) →
       (r.matched = true ↔ ∃ d ∈ ds, d.qualifier = SPFDirectiveQualifier.Pass ∧
          ∃ rr, matcher d.mechanism = some (.ok rr) ∧ rr.matched = true)) := by
  refine ⟨?_, ?_, includeScan_matched_iff⟩
  · intro env ips ctx nowSec fuel d hres
    have h1 : mechMatch env ips ctx nowSec (fuel + 1) (.includeMech d)
        = match SPFRecord.resolve env ips ctx nowSec d false with
          | .error e => some (.error e)
          | .ok none =>
            some (.error ⟨.networking, "Could not include SPF record for: " ++ d⟩)
          | .ok (some rec) =>
            includeScan (mechMatch env ips ctx nowSec fuel) rec.directives := rfl
    rw [h1, hres]
  · intro env ips ctx nowSec fuel d rec hres
    have h1 : mechMatch env ips ctx nowSec (fuel + 1) (.includeMech d)
        = match SPFRecord.resolve env ips ctx nowSec d false with
          | .error e => some (.error e)
          | .ok none =>
            some (.error ⟨.networking, "Could not include SPF record for: " ++ d⟩)
          | .ok (some rec) =>
            includeScan (mechMatch env ips ctx nowSec fuel) rec.directives := rfl
    rw [h1, hres]

/-- C3 witness: the amended statement at the concrete scenarios. -/
theorem c3_include_semantics_witness :
    mechMatch env3 ips0 ctx0 0 1 (.includeMech "nospf.example")
      = some (.error ⟨.networking, "Could not include SPF record for: nospf.example"⟩) ∧
    mechMatch env3 ips0 ctx0 0 2 (.includeMech "sub3.example")
      = includeScan (mechMatch env3 ips0 ctx0 0 1) [⟨.Fail, .all⟩, ⟨.Pass, .all⟩] ∧
    ((⟨true, some "all matched."⟩ : SPFMechanismResult).matched = true ↔
      ∃ d ∈ [(⟨.Fail, .all⟩ : SPFDirective), ⟨.Pass, .all⟩],
        d.qualifier = SPFDirectiveQualifier.Pass ∧
        ∃ rr, mechMatch env3 ips0 ctx0 0 1 d.mechanism = some (.ok rr) ∧
          rr.matched = true) :=
  ⟨c3_include_semantics.1 env3 ips0 ctx0 0 0 "nospf.example" rfl,
   c3_include_semantics.2.1 env3 ips0 ctx0 0 1 "sub3.example" ⟨[⟨.Fail, .all⟩, ⟨.Pass, .all⟩], []⟩ rfl,
   c3_include_semantics.2.2 (mechMatch env3 ips0 ctx0 0 1) [⟨.Fail, .all⟩, ⟨.Pass, .all⟩]
     ⟨true, some "all matched."⟩ rfl⟩

/-! ## Claim C5 -/

/-- For the mutually-including pair `a.example`/`b.example`, no fuel bound
lets the include mechanism terminate: the recursion alternates between the
two domains forever. -/
theorem loopInclude_diverges :
    ∀ fuel : Nat,
      mechMatch loopEnv ips0 ctx0 0 fuel (.includeMech "a.example") = none ∧
      mechMatch loopEnv ips0 ctx0 0 fuel (.includeMech "b.example") = none := by
  intro fuel
  induction fuel with
  | zero => exact ⟨rfl, rfl⟩
  | succ f ih =>
    constructor
    · have h1 : mechMatch loopEnv ips0 ctx0 0 (f + 1) (.includeMech "a.example")
          = includeScan (mechMatch loopEnv ips0 ctx0 0 f)
              [⟨.Pass, .includeMech "b.example"⟩] := rfl
      rw [h1, includeScan]
      dsimp only []
      rw [ih.2]
    · have h1 : mechMatch loopEnv ips0 ctx0 0 (f + 1) (.includeMech "b.example")
          = includeScan (mechMatch loopEnv ips0 ctx0 0 f)
              [⟨.Pass, .includeMech "a.example"⟩] := rfl
      rw [h1, includeScan]
      dsimp only []
      rw [ih.1]

/-- For the mutually-redirecting pair `ra.example`/`rb.example`, no fuel
bound lets the validator terminate. -/
theorem loopRedirect_diverges :
    ∀ fuel : Nat,
      SPFValidator.validate loopEnv ips0 ctx0 0 fuel "ra.example" = none ∧
      SPFValidator.validate loopEnv ips0 ctx0 0 fuel "rb.example" = none := by
  intro fuel
  induction fuel with
  | zero => exact ⟨rfl, rfl⟩
  | succ f ih =>
    constructor
    · have h1 : SPFValidator.validate loopEnv ips0 ctx0 0 (f + 1) "ra.example"
          = SPFValidator.validate loopEnv ips0 ctx0 0 f "rb.example" := rfl
      rw [h1]
      exact ih.2
    · have h1 : SPFValidator.validate loopEnv ips0 ctx0 0 (f + 1) "rb.example"
          = SPFValidator.validate loopEnv ips0 ctx0 0 f "ra.example" := rfl
      rw [h1]
      exact ih.1

/-- C5 (code evaluated at the failing inputs): the code has no visited-
domains set; on the two-domain include cycle and on the redirect cycle the
evaluation diverges — for **every** recursion bound it fails to produce
any outcome (in particular it never returns `PermError`). -/
theorem c5_loop_divergence :
    ∀ fuel : Nat,
      SPFValidator.validate loopEnv ips0 ctx0 0 fuel "a.example" = none ∧
      SPFValidator.validate loopEnv ips0 ctx0 0 fuel "ra.example" = none := by
  intro fuel
  constructor
  · cases fuel with
    | zero => rfl
    | succ f =>
      have h1 : SPFValidator.validate loopEnv ips0 ctx0 0 (f + 1) "a.example"
          = dirLoop loopEnv ips0 ctx0 0 f ⟨[⟨.Pass, .includeMech "b.example"⟩], []⟩
              [⟨.Pass, .includeMech "b.example"⟩] := rfl
      rw [h1, dirLoop]
      dsimp only []
      rw [(loopInclude_diverges f).2]
  · exact (loopRedirect_diverges fuel).1
